import Mathlib

/-!
Verification development for the multi-backend LLM proxy (API-IA-FREE).

The repository ships several variants of the same server file, concatenated in
src/index.ts.  Two of them matter for the claims below:

* the classic variant (lines 1-238 of src/index.ts): text-only dispatch, usage
  computed from message count and text length, placeholder text on exhaustion;
  modelled here by the names ending in V1;
* the tools-enabled variant (lines 707-930 of src/index.ts): delta dispatch
  with tool-call aggregation, flat usage numbers, HTTP 503 on exhaustion;
  modelled here by the names ending in V4 (and by cleanMessages,
  normalizeTools, aggregate, which are taken from that variant).

Every definition is a direct shallow embedding of the TypeScript source; the
few definitions whose doc comment starts with the words Modelled from the spec
restate the natural-language specification instead, for comparison.
-/

namespace MultiIaProxy

/-- JavaScript truthiness of an optional string field: an absent field and the
empty string are falsy, every other string is truthy. -/
def truthyS : Option String → Bool
  | none => false
  | some s => s ≠ ""

/-- Model of the JavaScript String.prototype.trim call used by the filters:
drop whitespace characters from both ends. -/
def trimJs (s : String) : String :=
  ⟨((s.data.dropWhile Char.isWhitespace).reverse.dropWhile Char.isWhitespace).reverse⟩

/-- One element of an array-shaped content field: a possibly missing text
field, together with the JSON.stringify rendering used as its fallback. -/
structure ContentPart where
  text : Option String
  stringified : String
deriving DecidableEq, Repr

/-- Shape of the content field of an incoming raw message: a string, an array
of parts, some other (truthy) object carried as its JSON.stringify rendering,
or absent (null or undefined, both falsy). -/
inductive RawContent
  | str (s : String)
  | arr (parts : List ContentPart)
  | obj (stringified : String)
  | absent
deriving DecidableEq, Repr

/-- An incoming message before normalization.  The tool_calls payload is
preserved verbatim by the code and never inspected, so it is modelled
opaquely as a list of strings; presence of the field (even as an empty
array) is JavaScript-truthy. -/
structure RawMessage where
  role : Option String
  content : RawContent
  tool_calls : Option (List String)
  tool_call_id : Option String
  name : Option String
deriving DecidableEq, Repr

/-- A normalized message as produced by cleanMessages in the tools-enabled
variant (src/index.ts lines 753-775). -/
structure ChatMessage where
  role : String
  content : String
  tool_calls : Option (List String)
  tool_call_id : Option String
  name : Option String
deriving DecidableEq, Repr

/-- Content extraction of cleanMessages: a string is used as is; an array is
joined with single spaces taking the text field of each part when truthy and
its JSON.stringify rendering otherwise; any other truthy object is
stringified; an absent content yields the empty string. -/
def extractContent : RawContent → String
  | .str s => s
  | .arr parts =>
      String.intercalate " " (parts.map fun p => if truthyS p.text then p.text.getD "" else p.stringified)
  | .obj j => j
  | .absent => ""

/-- The per-message body of cleanMessages (tools-enabled variant): default a
falsy role to user, rewrite chat and model to assistant, extract the content,
and carry tool_calls, tool_call_id and name over when truthy. -/
def cleanOne (m : RawMessage) : ChatMessage :=
  let role0 := if truthyS m.role then m.role.getD "" else "user"
  let role := if role0 = "chat" ∨ role0 = "model" then "assistant" else role0
  { role := role
    content := extractContent m.content
    tool_calls := m.tool_calls
    tool_call_id := if truthyS m.tool_call_id then m.tool_call_id else none
    name := if truthyS m.name then m.name else none }

/-- cleanMessages from the tools-enabled variant: map each raw message through
cleanOne, then keep a message only if its trimmed content is non-empty or it
carries a tool_calls field. -/
def cleanMessages (ms : List RawMessage) : List ChatMessage :=
  (ms.map cleanOne).filter fun m => trimJs m.content ≠ "" ∨ m.tool_calls.isSome

/-- The function sub-object of a raw tool entry. -/
structure RawFn where
  name : Option String
  description : Option String
  parameters : Option String
deriving DecidableEq, Repr

/-- A raw tool entry as received in the request body.  JSON-schema objects are
carried opaquely as their rendering; their JavaScript truthiness is presence. -/
structure RawTool where
  type : Option String
  function : Option RawFn
  name : Option String
  description : Option String
  parameters : Option String
  arguments : Option String
deriving DecidableEq, Repr

/-- Optional chaining t.function?.name used by normalizeTools. -/
def rawFnName (t : RawTool) : Option String := t.function.bind RawFn.name

/-- Output of the per-entry step of normalizeTools: either the entry passed
through unchanged, or the synthesized canonical function wrapper. -/
inductive NTool
  | raw (t : RawTool)
  | fn (name description parameters : String)
deriving DecidableEq, Repr

/-- The filter predicate of normalizeTools, the truthiness of
t.function?.name on the mapped entry. -/
def keepTool : NTool → Bool
  | .raw t => truthyS (rawFnName t)
  | .fn n _ _ => n ≠ ""

/-- The per-entry body of normalizeTools (src/index.ts lines 780-792): a
canonical entry passes through, an entry with a truthy name and truthy
parameters or arguments is rewrapped, anything else passes through. -/
def normalizeTool (t : RawTool) : NTool :=
  if t.type = some "function" ∧ truthyS (rawFnName t) then .raw t
  else if truthyS t.name ∧ (t.parameters.isSome ∨ t.arguments.isSome) then
    .fn (t.name.getD "")
        (if truthyS t.description then t.description.getD "" else "")
        (if t.parameters.isSome then t.parameters.getD "" else t.arguments.getD "")
  else .raw t

/-- normalizeTools: absent when the input is missing or an empty array,
otherwise the mapped entries filtered by the truthiness of function.name. -/
def normalizeTools (tools : Option (List RawTool)) : Option (List NTool) :=
  match tools with
  | none => none
  | some ts => if ts = [] then none else some ((ts.map normalizeTool).filter keepTool)

/-- The function sub-object of a streamed tool-call fragment: partial name and
argument strings. -/
structure TCFn where
  name : Option String
  arguments : Option String
deriving DecidableEq, Repr

/-- One streamed tool-call fragment: position in the eventual array, optional
id, and optional partial function fields. -/
structure TCFrag where
  index : Option Nat
  id : Option String
  function : Option TCFn
deriving DecidableEq, Repr

/-- One unit of incremental backend output in the tools-enabled variant. -/
structure Delta where
  content : Option String
  tool_calls : Option (List TCFrag)
deriving DecidableEq, Repr

/-- An assembled tool call (the type field is always the word function). -/
@[ext]
structure ToolEntry where
  id : String
  fname : String
  fargs : String
deriving DecidableEq, Repr

/-- The grouping key tc.index ?? 0 used by the aggregation loop. -/
def fragIdx (tc : TCFrag) : Nat := tc.index.getD 0

/-- Optional chaining tc.function?.name. -/
def fragName (tc : TCFrag) : Option String := tc.function.bind TCFn.name

/-- Optional chaining tc.function?.arguments. -/
def fragArgs (tc : TCFrag) : Option String := tc.function.bind TCFn.arguments

/-- The three truthiness-guarded mutations applied to a map entry for one
fragment: overwrite the id, append to the name, append to the arguments
(src/index.ts lines 864-866). -/
def stepEntry (e : ToolEntry) (tc : TCFrag) : ToolEntry :=
  let e1 := if truthyS tc.id then { e with id := tc.id.getD "" } else e
  let e2 := if truthyS (fragName tc) then { e1 with fname := e1.fname ++ (fragName tc).getD "" } else e1
  if truthyS (fragArgs tc) then { e2 with fargs := e2.fargs ++ (fragArgs tc).getD "" } else e2

/-- The entry created on a map miss (src/index.ts lines 857-861): the id of
the creating fragment when truthy, otherwise a generated placeholder; empty
name and arguments.  The random call id is modelled by the generator gen. -/
def initEntry (gen : Nat → String) (idx : Nat) (tc : TCFrag) : ToolEntry :=
  { id := if truthyS tc.id then tc.id.getD "" else gen idx
    fname := ""
    fargs := "" }

/-- Processing of one fragment against the insertion-ordered tool-call map:
insert a fresh entry at the end on a miss, then mutate the entry at the
fragment index. -/
def applyFrag (gen : Nat → String) (m : List (Nat × ToolEntry)) (tc : TCFrag) : List (Nat × ToolEntry) :=
  (if m.any (fun p => p.1 = fragIdx tc) then m
   else m ++ [(fragIdx tc, initEntry gen (fragIdx tc) tc)]).map
    fun p => if p.1 = fragIdx tc then (p.1, stepEntry p.2 tc) else p

/-- Processing of one delta against the accumulated text and tool-call map
(src/index.ts lines 851-868): append truthy content, then fold the fragments
of a present tool_calls array. -/
def applyDelta (gen : Nat → String) (st : String × List (Nat × ToolEntry)) (d : Delta) :
    String × List (Nat × ToolEntry) :=
  let t := if truthyS d.content then st.1 ++ d.content.getD "" else st.1
  let m := match d.tool_calls with
    | some frags => frags.foldl (applyFrag gen) st.2
    | none => st.2
  (t, m)

/-- Draining one backend stream in the non-streaming path: fold every yielded
delta into the empty accumulation state. -/
def aggregate (gen : Nat → String) (deltas : List Delta) : String × List (Nat × ToolEntry) :=
  deltas.foldl (applyDelta gen) ("", [])

/-- One backend attempt in the tools-enabled variant: the deltas its stream
yields, and whether the chat call or the stream raises after yielding them
(a synchronous failure is the case of an empty delta list with raises set). -/
structure Backend where
  name : String
  deltas : List Delta
  raises : Bool
deriving DecidableEq, Repr

/-- Outcome of the non-streaming dispatch loop of the tools-enabled variant. -/
inductive DispatchResult
  | success (servedBy : String) (fullText : String) (toolCalls : List ToolEntry)
  | allFailed
deriving DecidableEq, Repr

/-- The non-streaming dispatch loop of the tools-enabled variant
(src/index.ts lines 846-894): per backend the accumulation state is reset and
the stream drained; a raise discards the drained state and advances; a clean
drain returns when the text is truthy or a tool call exists, and advances
otherwise; exhaustion of the list is the 503 all-failed outcome.  The second
component lists the names of the backends whose chat operation was invoked. -/
def dispatchV4 (gen : Nat → String) : List Backend → DispatchResult × List String
  | [] => (.allFailed, [])
  | b :: rest =>
      if b.raises then
        ((dispatchV4 gen rest).1, b.name :: (dispatchV4 gen rest).2)
      else if (aggregate gen b.deltas).1 ≠ "" ∨ (aggregate gen b.deltas).2 ≠ [] then
        (.success b.name (aggregate gen b.deltas).1 ((aggregate gen b.deltas).2.map Prod.snd),
          [b.name])
      else
        ((dispatchV4 gen rest).1, b.name :: (dispatchV4 gen rest).2)

/-- The usage block of a composed response. -/
structure Usage where
  prompt : Nat
  completion : Nat
  total : Nat
deriving DecidableEq, Repr

/-- Wire-level outcome of the tools-enabled non-streaming handler: the early
placeholder reply (HTTP 200, no dispatch), a composed completion (HTTP 200),
or the all-failed error body (HTTP 503). -/
inductive V4Handler
  | placeholder (text : String)
  | completion (content : Option String) (toolCalls : List ToolEntry) (finishReason : String) (usage : Usage)
  | failure
deriving DecidableEq, Repr

/-- The tools-enabled non-streaming handler (src/index.ts lines 796-896):
normalize the messages, reply with the flavor placeholder when none survive,
otherwise dispatch and compose.  The usage block is the flat triple of the
source (message count times ten, fifty, one hundred); content is null when
the text is empty; finish_reason is tool_calls exactly when a tool call is
present.  The second component again lists the invoked backends. -/
def handleV4 (isResponsesApi : Bool) (raw : List RawMessage) (gen : Nat → String) (bs : List Backend) :
    V4Handler × List String :=
  let messages := cleanMessages raw
  if messages.length = 0 then
    (.placeholder (if isResponsesApi then "Esperando mensaje." else "Conexión activa."), [])
  else
    match dispatchV4 gen bs with
    | (.success _ t tc, inv) =>
        (.completion (if t ≠ "" then some t else none) tc
          (if tc ≠ [] then "tool_calls" else "stop")
          ⟨messages.length * 10, 50, 100⟩, inv)
    | (.allFailed, inv) => (.failure, inv)

/-- One backend attempt in the classic variant: the plain text chunks its
stream yields and whether it raises after yielding them. -/
structure BackendV1 where
  name : String
  chunks : List String
  raises : Bool
deriving DecidableEq, Repr

/-- Concatenation of the chunks a stream yields, in arrival order. -/
def chunksText (cs : List String) : String := cs.foldl (· ++ ·) ""

/-- The non-streaming rotation loop of the classic variant (src/index.ts
lines 140-146).  The accumulated text is NOT reset between backends: chunks
consumed before a mid-stream raise stay in fullText.  A backend is credited
and the loop exits only when the accumulated text is truthy after a clean
drain. -/
def dispatchLoopV1 : String → String → List BackendV1 → String × String
  | full, used, [] => (full, used)
  | full, used, b :: rest =>
      let full2 := full ++ chunksText b.chunks
      if b.raises then dispatchLoopV1 full2 used rest
      else if full2 ≠ "" then (full2, b.name)
      else dispatchLoopV1 full2 used rest

/-- The classic non-streaming dispatch (src/index.ts lines 138-153): the
rotation loop starting from empty text and the service name none, then the
last-resort attempt, entered only when the text is still empty, which also
keeps chunks consumed before a raise. -/
def dispatchV1 (rot : List BackendV1) (lr : Option BackendV1) : String × String :=
  let r := dispatchLoopV1 "" "none" rot
  match lr with
  | some b =>
      if r.1 = "" then
        let full2 := r.1 ++ chunksText b.chunks
        if b.raises then (full2, r.2)
        else if full2 ≠ "" then (full2, b.name)
        else (full2, r.2)
      else r
  | none => r

/-- The apology text substituted by the classic variant when the dispatch
ends with empty text (src/index.ts line 155). -/
def placeholderV1 : String :=
  "Lo siento, todos los servicios de IA están ocupados. Intenta de nuevo en unos segundos."

/-- The composed classic non-streaming response: always HTTP 200 with one
assistant choice. -/
structure V1Response where
  content : String
  usedService : String
  usage : Usage
deriving DecidableEq, Repr

/-- Composition of the classic non-streaming response (src/index.ts lines
155-182): substitute the apology placeholder for empty text, then compute the
usage heuristic from the message count and the final text length. -/
def respondV1 (messages : List ChatMessage) (rot : List BackendV1) (lr : Option BackendV1) : V1Response :=
  let d := dispatchV1 rot lr
  let full := if d.1 = "" then placeholderV1 else d.1
  let pt := max 1 (messages.length * 10)
  let ct := (full.length + 3) / 4
  { content := full, usedService := d.2, usage := { prompt := pt, completion := ct, total := pt + ct } }

/-- One server-sent frame written by a streaming handler: a classic chunk
carrying a content string, a tools-enabled chunk carrying a whole delta, the
stop sentinel (a chunk with empty delta and finish_reason stop), or the
literal DONE frame. -/
inductive Frame
  | chunk (content : String)
  | deltaChunk (d : Delta)
  | stop
  | done
deriving DecidableEq, Repr

/-- The streaming rotation loop of the classic variant (src/index.ts lines
107-120): every received chunk is written immediately; frames written by a
backend that later raises stand, and the loop advances; a clean drain sets
the success flag and exits. -/
def streamLoopV1 : List BackendV1 → List Frame × Bool
  | [] => ([], false)
  | b :: rest =>
      if b.raises then
        (b.chunks.map Frame.chunk ++ (streamLoopV1 rest).1, (streamLoopV1 rest).2)
      else (b.chunks.map Frame.chunk, true)

/-- The full classic streaming frame sequence (src/index.ts lines 104-136):
the rotation loop, the last-resort attempt when no backend succeeded, and
then always the stop sentinel followed by the DONE frame. -/
def streamV1 (rot : List BackendV1) (lr : Option BackendV1) : List Frame :=
  (match lr with
    | some b =>
        if (streamLoopV1 rot).2 then (streamLoopV1 rot).1
        else (streamLoopV1 rot).1 ++ b.chunks.map Frame.chunk
    | none => (streamLoopV1 rot).1) ++ [Frame.stop, Frame.done]

/-- The streaming frame sequence of the tools-enabled variant (src/index.ts
lines 822-840): each attempted backend writes one frame per delta; a backend
that raises leaves its frames in place and the loop advances; a clean drain
writes the DONE frame and returns.  No stop sentinel exists in this path, and
nothing at all terminates the sequence when every backend raises. -/
def streamV4 : List Backend → List Frame
  | [] => []
  | b :: rest =>
      if b.raises then b.deltas.map Frame.deltaChunk ++ streamV4 rest
      else b.deltas.map Frame.deltaChunk ++ [Frame.done]

/-- Presence of each credential in the environment (presence means the
variable is set to a JavaScript-truthy, hence non-empty, string). -/
structure Env where
  groq : Bool
  cerebras : Bool
  gemini : Bool
  openrouter : Bool
deriving DecidableEq, Repr

/-- The four concrete backend services of the repository. -/
inductive Service
  | groq
  | cerebras
  | gemini
  | openrouter
deriving DecidableEq, Repr

/-- The conditional pushes building availableServices (src/index.ts lines
718-721), in the fixed order groq, cerebras, gemini. -/
def availableServices (e : Env) : List Service :=
  (if e.groq then [Service.groq] else []) ++
  (if e.cerebras then [Service.cerebras] else []) ++
  (if e.gemini then [Service.gemini] else [])

/-- The rotation list (src/index.ts line 723): the available services, or the
groq service alone when no credential is present. -/
def rotationServices (e : Env) : List Service :=
  if availableServices e ≠ [] then availableServices e else [Service.groq]

/-- The last-resort backend (src/index.ts line 724), configured exactly when
the openrouter credential is present. -/
def lastResortService (e : Env) : Option Service :=
  if e.openrouter then some Service.openrouter else none

/-- Modelled from the spec: the role mapping table of claim C5 (human and
user to user; ai, assistant, model and chat to assistant; system to system;
tool to tool; anything unrecognized to user), stated on the lowercase
spellings the claim quotes (the claim additionally demands case
insensitivity, which the code also lacks). -/
def specRoleMap (r : String) : String :=
  if r = "human" ∨ r = "user" then "user"
  else if r = "ai" ∨ r = "assistant" ∨ r = "model" ∨ r = "chat" then "assistant"
  else if r = "system" then "system"
  else if r = "tool" then "tool"
  else "user"

/-- Modelled from the spec: the retention rule of claim C6, which keeps a
message when its content is non-blank, or it carries tool_calls, or its role
is tool. -/
def specMessageKept (content : String) (toolCalls : Option (List String)) (role : String) : Bool :=
  if trimJs content = "" ∧ toolCalls = none ∧ role ≠ "tool" then false else true

/-- Modelled from the spec: the id rule of claim C3, the id carried by the
first fragment that supplies one. -/
def firstSuppliedId (fs : List TCFrag) : Option String :=
  (fs.find? fun f => truthyS f.id).bind TCFrag.id

/-- Modelled from the spec: the resolvable-name condition of claim C7, a name
at the top level or inside the function sub-object. -/
def specToolHasName (t : RawTool) : Bool :=
  truthyS t.name || truthyS (rawFnName t)

/-- Modelled from the spec: the usage heuristic of claim C4. -/
def specUsage (messageCount textLen : Nat) (isToolCall : Bool) : Usage :=
  let p := max 1 (messageCount * 10)
  let c := if isToolCall then 50 else (textLen + 3) / 4
  { prompt := p, completion := c, total := p + c }

/-- Every tool-call fragment yielded across a delta list, in arrival order. -/
def deltaFrags (ds : List Delta) : List TCFrag :=
  (ds.map fun d => d.tool_calls.getD []).flatten

/-- The distinct fragment indices of a fragment list, in first-seen order. -/
def firstSeenIdx (fs : List TCFrag) : List Nat :=
  fs.foldl (fun acc f => if fragIdx f ∈ acc then acc else acc ++ [fragIdx f]) []

/-- The id supplied by the last fragment of a group that carries a truthy
one, when any does. -/
def lastSuppliedId (fs : List TCFrag) : Option String :=
  fs.foldl (fun acc f => if truthyS f.id then f.id else acc) none

/-- Concatenation, in arrival order, of an optional string field over a
fragment list, reading an absent field as the empty string. -/
def concatField (g : TCFrag → Option String) (fs : List TCFrag) : String :=
  fs.foldl (fun acc f => acc ++ (g f).getD "") ""

/-- The reassembled entry of one index group, stated declaratively: the id is
the last one supplied (or the generated placeholder when none is), and the
function name and arguments are the concatenations of the partial strings. -/
def specEntry (gen : Nat → String) (k : Nat) (fs : List TCFrag) : ToolEntry :=
  { id := (lastSuppliedId fs).getD (gen k)
    fname := concatField fragName fs
    fargs := concatField fragArgs fs }

/-- The declarative reassembly of a whole fragment list: one entry per
distinct index in first-seen order, each computed from exactly the fragments
of its group. -/
def reassembleSpec (gen : Nat → String) (fs : List TCFrag) : List (Nat × ToolEntry) :=
  (firstSeenIdx fs).map fun k => (k, specEntry gen k (fs.filter fun f => fragIdx f = k))

/-- A fixed stand-in for the random call-id generator, used by the concrete
instances below. -/
def genTest : Nat → String := fun _ => "call_gen"

/-! ## Helper lemmas for the tool-call reassembly proof -/

/-- A truthy optional string ignores the default of getD. -/
theorem truthyS_getD (o : Option String) (h : truthyS o = true) (a b : String) :
    o.getD a = o.getD b := by
  cases o with
  | none => simp [truthyS] at h
  | some s => rfl

/-- A falsy optional string reads as the empty string under getD. -/
theorem not_truthyS_getD (o : Option String) (h : truthyS o = false) : o.getD "" = "" := by
  cases o with
  | none => rfl
  | some s => simp [truthyS] at h; simp [h]

/-- Appending the last fragment to a group moves the last-supplied id one
step. -/
theorem lastSuppliedId_append (gs : List TCFrag) (f : TCFrag) :
    lastSuppliedId (gs ++ [f]) = if truthyS f.id then f.id else lastSuppliedId gs := by
  simp [lastSuppliedId, List.foldl_append]

/-- Appending the last fragment to a group appends its field value to the
concatenation. -/
theorem concatField_append (g : TCFrag → Option String) (gs : List TCFrag) (f : TCFrag) :
    concatField g (gs ++ [f]) = concatField g gs ++ (g f).getD "" := by
  simp [concatField, List.foldl_append]

/-- The id written by one mutation step: the fragment id when truthy,
otherwise the previous id. -/
theorem stepEntry_id (e : ToolEntry) (f : TCFrag) :
    (stepEntry e f).id = if truthyS f.id then f.id.getD "" else e.id := by
  unfold stepEntry
  cases h1 : truthyS f.id <;> cases h2 : truthyS (fragName f) <;> cases h3 : truthyS (fragArgs f) <;>
    simp [h1, h2, h3]

/-- The name written by one mutation step is always the previous name
followed by the partial name read as a string. -/
theorem stepEntry_fname (e : ToolEntry) (f : TCFrag) :
    (stepEntry e f).fname = e.fname ++ (fragName f).getD "" := by
  unfold stepEntry
  cases h1 : truthyS f.id <;> cases h2 : truthyS (fragName f) <;> cases h3 : truthyS (fragArgs f) <;>
    simp [h1, h2, h3, not_truthyS_getD (fragName f)]

/-- The arguments written by one mutation step are always the previous
arguments followed by the partial arguments read as a string. -/
theorem stepEntry_fargs (e : ToolEntry) (f : TCFrag) :
    (stepEntry e f).fargs = e.fargs ++ (fragArgs f).getD "" := by
  unfold stepEntry
  cases h1 : truthyS f.id <;> cases h2 : truthyS (fragName f) <;> cases h3 : truthyS (fragArgs f) <;>
    simp [h1, h2, h3, not_truthyS_getD (fragArgs f)]

/-- Applying the per-fragment mutation to the declarative entry of a group
yields the declarative entry of the extended group. -/
theorem stepEntry_specEntry (gen : Nat → String) (k : Nat) (gs : List TCFrag) (f : TCFrag) :
    stepEntry (specEntry gen k gs) f = specEntry gen k (gs ++ [f]) := by
  apply ToolEntry.ext
  · rw [stepEntry_id]
    simp only [specEntry, lastSuppliedId_append]
    cases hid : truthyS f.id
    · simp
    · simp [truthyS_getD f.id hid "" (gen k)]
  · rw [stepEntry_fname]
    simp only [specEntry, concatField_append]
  · rw [stepEntry_fargs]
    simp only [specEntry, concatField_append]

/-- The creating mutation: inserting the fresh entry and immediately applying
the creating fragment to it yields the declarative entry of the singleton
group. -/
theorem stepEntry_initEntry (gen : Nat → String) (k : Nat) (f : TCFrag) :
    stepEntry (initEntry gen k f) f = specEntry gen k [f] := by
  apply ToolEntry.ext
  · rw [stepEntry_id]
    simp only [specEntry, initEntry, lastSuppliedId, List.foldl_cons, List.foldl_nil]
    cases hid : truthyS f.id
    · simp
    · simp [truthyS_getD f.id hid "" (gen k)]
  · rw [stepEntry_fname]
    simp [specEntry, initEntry, concatField]
  · rw [stepEntry_fargs]
    simp [specEntry, initEntry, concatField]

/-- Membership in the generalized first-seen fold. -/
theorem mem_firstSeen_foldl (fs : List TCFrag) (acc : List Nat) (j : Nat) :
    (j ∈ fs.foldl (fun acc f => if fragIdx f ∈ acc then acc else acc ++ [fragIdx f]) acc) ↔
      j ∈ acc ∨ ∃ f ∈ fs, fragIdx f = j := by
  induction fs generalizing acc with
  | nil => simp
  | cons g gs ih =>
    simp only [List.foldl_cons, ih, List.mem_cons, exists_eq_or_imp]
    by_cases hg : fragIdx g ∈ acc
    · have hga : fragIdx g = j → j ∈ acc := fun h => h ▸ hg
      rw [if_pos hg]
      constructor
      · rintro (h | h)
        · exact Or.inl h
        · exact Or.inr (Or.inr h)
      · rintro (h | h | h)
        · exact Or.inl h
        · exact Or.inl (hga h)
        · exact Or.inr h
    · rw [if_neg hg]
      simp only [List.mem_append, List.mem_singleton]
      constructor
      · rintro ((h | h) | h)
        · exact Or.inl h
        · exact Or.inr (Or.inl h.symm)
        · exact Or.inr (Or.inr h)
      · rintro (h | h | h)
        · exact Or.inl (Or.inl h)
        · exact Or.inl (Or.inr h.symm)
        · exact Or.inr h

/-- An index occurs in the first-seen list exactly when some fragment carries
it. -/
theorem mem_firstSeenIdx (fs : List TCFrag) (j : Nat) :
    j ∈ firstSeenIdx fs ↔ ∃ f ∈ fs, fragIdx f = j := by
  simpa [firstSeenIdx] using mem_firstSeen_foldl fs [] j

/-- The first-seen index list of an extended fragment list. -/
theorem firstSeenIdx_append (fs : List TCFrag) (f : TCFrag) :
    firstSeenIdx (fs ++ [f]) =
      if fragIdx f ∈ firstSeenIdx fs then firstSeenIdx fs else firstSeenIdx fs ++ [fragIdx f] := by
  simp [firstSeenIdx, List.foldl_append]

/-- The keys of the declarative reassembly are the first-seen indices. -/
theorem reassembleSpec_keys (gen : Nat → String) (fs : List TCFrag) :
    (reassembleSpec gen fs).map Prod.fst = firstSeenIdx fs := by
  simp [reassembleSpec, List.map_map, Function.comp_def]

/-- The map-miss test of applyFrag, restated over the declarative
reassembly. -/
theorem reassembleSpec_any (gen : Nat → String) (fs : List TCFrag) (k : Nat) :
    ((reassembleSpec gen fs).any fun p => p.1 = k) = true ↔ k ∈ firstSeenIdx fs := by
  rw [← reassembleSpec_keys gen fs]
  simp [List.any_eq_true, List.mem_map]

/-- Key invariant: one step of the imperative aggregation, applied to the
declarative reassembly of the fragments consumed so far, yields the
declarative reassembly of the extended consumption. -/
theorem applyFrag_reassembleSpec (gen : Nat → String) (fs : List TCFrag) (f : TCFrag) :
    applyFrag gen (reassembleSpec gen fs) f = reassembleSpec gen (fs ++ [f]) := by
  have hfilter : ∀ j, (fs ++ [f]).filter (fun g => fragIdx g = j) =
      fs.filter (fun g => fragIdx g = j) ++ if fragIdx f = j then [f] else [] := by
    intro j
    rw [List.filter_append]
    congr 1
    by_cases h : fragIdx f = j <;> simp [h]
  by_cases hk : fragIdx f ∈ firstSeenIdx fs
  · have hany : ((reassembleSpec gen fs).any fun p => p.1 = fragIdx f) = true :=
      (reassembleSpec_any gen fs (fragIdx f)).mpr hk
    unfold applyFrag
    rw [if_pos hany]
    conv_lhs => rw [reassembleSpec]
    rw [List.map_map]
    rw [reassembleSpec, firstSeenIdx_append, if_pos hk]
    apply List.map_congr_left
    intro j hj
    by_cases hjk : j = fragIdx f
    · subst hjk
      simp [hfilter, stepEntry_specEntry]
    · have hne : ¬ fragIdx f = j := fun h => hjk h.symm
      simp [Function.comp_def, hjk, hfilter, hne]
  · have hany : ¬ ((reassembleSpec gen fs).any fun p => p.1 = fragIdx f) = true := by
      rw [reassembleSpec_any]
      exact hk
    unfold applyFrag
    rw [if_neg hany]
    rw [List.map_append]
    conv_rhs => rw [reassembleSpec, firstSeenIdx_append, if_neg hk, List.map_append]
    congr 1
    · conv_lhs => rw [reassembleSpec, List.map_map]
      apply List.map_congr_left
      intro j hj
      have hjk : ¬ j = fragIdx f := fun h => hk (h ▸ hj)
      have hne : ¬ fragIdx f = j := fun h => hjk h.symm
      simp [Function.comp_def, hjk, hfilter, hne]
    · have hnil : fs.filter (fun g => fragIdx g = fragIdx f) = [] := by
        rw [List.filter_eq_nil_iff]
        intro g hg
        simp only [decide_eq_true_eq]
        exact fun h => hk ((mem_firstSeenIdx fs (fragIdx f)).mpr ⟨g, hg, h⟩)
      simp [hfilter, hnil, stepEntry_initEntry]

/-- The imperative aggregation of any fragment sequence, started from the
declarative reassembly of already-consumed fragments, is the declarative
reassembly of the whole consumption. -/
theorem foldl_applyFrag_reassembleSpec (gen : Nat → String) (fs acc : List TCFrag) :
    fs.foldl (applyFrag gen) (reassembleSpec gen acc) = reassembleSpec gen (acc ++ fs) := by
  induction fs generalizing acc with
  | nil => simp
  | cons f fs ih =>
    rw [List.foldl_cons, applyFrag_reassembleSpec, ih]
    simp

/-- The tool-call component of the delta fold only depends on the flattened
fragment sequence. -/
theorem foldl_applyDelta_snd (gen : Nat → String) (ds : List Delta)
    (st : String × List (Nat × ToolEntry)) :
    (ds.foldl (applyDelta gen) st).2 = (deltaFrags ds).foldl (applyFrag gen) st.2 := by
  induction ds generalizing st with
  | nil => simp [deltaFrags]
  | cons d ds ih =>
    rw [List.foldl_cons, ih]
    have h2 : (applyDelta gen st d).2 = (d.tool_calls.getD []).foldl (applyFrag gen) st.2 := by
      cases h : d.tool_calls <;> simp [applyDelta, h]
    have hflat : deltaFrags (d :: ds) = d.tool_calls.getD [] ++ deltaFrags ds := by
      simp [deltaFrags]
    rw [h2, ← List.foldl_append, hflat]

/-- Claim C3, amended: in the aggregation of streamed tool-call fragments
into a non-streaming response, fragments are grouped by their index field
(absent indices count as zero); within each group the function name and the
function arguments are the concatenations, in arrival order, of the partial
strings of every fragment; the groups appear in first-seen index order; and
the reassembled id is the id carried by the LAST fragment that supplies one
(the original claim said the first), falling back to the generated
placeholder when none does. -/
theorem c3_amended (gen : Nat → String) (ds : List Delta) :
    (aggregate gen ds).2 = reassembleSpec gen (deltaFrags ds) := by
  have h0 : reassembleSpec gen [] = ([] : List (Nat × ToolEntry)) := rfl
  rw [aggregate, foldl_applyDelta_snd, ← h0, foldl_applyFrag_reassembleSpec]
  simp

/-- Claim C3, counterexample: two fragments of index zero supply the ids A
and then B; the aggregation keeps B, the id supplied last, while the claim
requires A, the id supplied by the first fragment that carries one. -/
theorem c3_counterexample :
    (aggregate genTest
        [⟨none, some [⟨some 0, some "A", none⟩, ⟨some 0, some "B", none⟩]⟩]).2 =
      [(0, ⟨"B", "", ""⟩)] ∧
    firstSuppliedId [⟨some 0, some "A", none⟩, ⟨some 0, some "B", none⟩] = some "A" ∧
    "B" ≠ "A" := by
  refine ⟨by decide, by decide, by decide⟩

/-- Claim C1, amended: in the non-streaming path of the tools-enabled
handler, a backend whose fully drained stream leaves empty accumulated text
and an empty tool-call map is never surfaced as a success (the loop advances
past it), and when every backend of the rotation list either raises or
drains to an all-empty result the dispatch ends in the all-failed state
(surfaced as HTTP 503).  The last-resort backend is not consulted in this
path, so the parenthetical about it in the original claim is dropped; the
classic variant behaves differently (see the counterexample). -/
theorem c1_amended (gen : Nat → String) (bs : List Backend) :
    ((∀ b ∈ bs, b.raises = true ∨ aggregate gen b.deltas = ("", [])) →
      (dispatchV4 gen bs).1 = DispatchResult.allFailed) ∧
    (∀ n t tc, (dispatchV4 gen bs).1 = DispatchResult.success n t tc → ¬(t = "" ∧ tc = [])) := by
  induction bs with
  | nil =>
    refine ⟨fun _ => rfl, fun n t tc h => ?_⟩
    simp [dispatchV4] at h
  | cons b bs ih =>
    refine ⟨fun h => ?_, fun n t tc h => ?_⟩
    · have hb := h b (List.mem_cons_self b bs)
      have hrest := ih.1 fun x hx => h x (List.mem_cons_of_mem b hx)
      by_cases hr : b.raises = true
      · simp [dispatchV4, hr, hrest]
      · have hagg : aggregate gen b.deltas = ("", []) := by
          rcases hb with hb | hb
          · exact absurd hb hr
          · exact hb
        simp [dispatchV4, hr, hagg, hrest]
    · by_cases hr : b.raises = true
      · rw [show (dispatchV4 gen (b :: bs)).1 = (dispatchV4 gen bs).1 by
          simp [dispatchV4, hr]] at h
        exact ih.2 n t tc h
      · by_cases hc : (aggregate gen b.deltas).1 ≠ "" ∨ (aggregate gen b.deltas).2 ≠ []
        · simp only [dispatchV4, if_neg hr, if_pos hc] at h
          obtain ⟨hn, ht, htc⟩ := DispatchResult.success.inj h
          rintro ⟨h1, h2⟩
          rcases hc with hc | hc
          · exact hc (ht.trans h1)
          · exact hc (List.map_eq_nil_iff.mp (htc.trans h2))
        · rw [show (dispatchV4 gen (b :: bs)).1 = (dispatchV4 gen bs).1 by
            simp only [dispatchV4, if_neg hr, if_neg hc]] at h
          exact ih.2 n t tc h

/-- Claim C1, witness: a single configured backend that drains cleanly to an
empty result leads to the all-failed outcome. -/
theorem c1_witness :
    (∀ b ∈ [Backend.mk "Groq" [] false], b.raises = true ∨ aggregate genTest b.deltas = ("", [])) ∧
    (dispatchV4 genTest [Backend.mk "Groq" [] false]).1 = DispatchResult.allFailed :=
  ⟨by decide, (c1_amended genTest [Backend.mk "Groq" [] false]).1 (by decide)⟩

/-- Claim C1, counterexample, on the classic variant the claim also cites:
the only backend raises after yielding the text abc, so every backend ends
in an exception, yet the handler returns a normal HTTP 200 completion whose
content is abc (credited to no service), not the all-failed condition and
not even the apology placeholder. -/
theorem c1_counterexample :
    respondV1 [⟨"user", "hi", none, none, none⟩] [⟨"GroqCloud", ["abc"], true⟩] none =
      ⟨"abc", "none", ⟨10, 1, 11⟩⟩ ∧
    "abc" ≠ placeholderV1 :=
  ⟨by decide, by decide⟩

/-- Claim C2, amended: in the non-streaming path of the tools-enabled
handler the success payload is computed from the deltas of the one credited
backend alone, so no fragment from an earlier failed backend can reach the
response (each iteration resets the accumulation state).  The classic
variant violates the original claim (see the counterexample), which is
therefore restricted to the tools-enabled handler. -/
theorem c2_amended (gen : Nat → String) (bs : List Backend) (n t : String) (tc : List ToolEntry)
    (h : (dispatchV4 gen bs).1 = DispatchResult.success n t tc) :
    ∃ b ∈ bs, b.raises = false ∧ b.name = n ∧
      (aggregate gen b.deltas).1 = t ∧ (aggregate gen b.deltas).2.map Prod.snd = tc := by
  induction bs with
  | nil => simp [dispatchV4] at h
  | cons b bs ih =>
    by_cases hr : b.raises = true
    · rw [show (dispatchV4 gen (b :: bs)).1 = (dispatchV4 gen bs).1 by
        simp [dispatchV4, hr]] at h
      obtain ⟨b', hb', hprops⟩ := ih h
      exact ⟨b', List.mem_cons_of_mem b hb', hprops⟩
    · by_cases hc : (aggregate gen b.deltas).1 ≠ "" ∨ (aggregate gen b.deltas).2 ≠ []
      · simp only [dispatchV4, if_neg hr, if_pos hc] at h
        obtain ⟨hn, ht, htc⟩ := DispatchResult.success.inj h
        exact ⟨b, List.mem_cons_self b bs, Bool.eq_false_iff.mpr hr, hn, ht, htc⟩
      · rw [show (dispatchV4 gen (b :: bs)).1 = (dispatchV4 gen bs).1 by
          simp only [dispatchV4, if_neg hr, if_neg hc]] at h
        obtain ⟨b', hb', hprops⟩ := ih h
        exact ⟨b', List.mem_cons_of_mem b hb', hprops⟩

/-- Claim C2, witness: a single clean backend is credited and its aggregation
is the payload. -/
theorem c2_witness :
    ∃ b ∈ [Backend.mk "A" [⟨some "hola", none⟩] false], b.raises = false ∧ b.name = "A" ∧
      (aggregate genTest b.deltas).1 = "hola" ∧ (aggregate genTest b.deltas).2.map Prod.snd = [] :=
  c2_amended genTest [Backend.mk "A" [⟨some "hola", none⟩] false] "A" "hola" [] (by decide)

/-- Claim C2, counterexample, on the classic variant the claim also cites:
backend A yields abc and then raises, backend B yields def and ends cleanly;
the response content is abcdef although success is credited to B, whereas B
alone yields def.  The fragment abc of the failed backend A is therefore
mixed into the final response, which the claim forbids. -/
theorem c2_counterexample :
    respondV1 [⟨"user", "hi", none, none, none⟩]
        [⟨"A", ["abc"], true⟩, ⟨"B", ["def"], false⟩] none =
      ⟨"abcdef", "B", ⟨10, 2, 12⟩⟩ ∧
    respondV1 [⟨"user", "hi", none, none, none⟩] [⟨"B", ["def"], false⟩] none =
      ⟨"def", "B", ⟨10, 1, 11⟩⟩ ∧
    "abcdef" ≠ "def" :=
  ⟨by decide, by decide, by decide⟩

/-- Reading a truthiness-guarded default through getD. -/
theorem truthy_guard_getD (o : Option String) :
    (if truthyS o then o.getD "" else "") = o.getD "" := by
  cases o with
  | none => rfl
  | some s =>
    by_cases h : s = "" <;> simp [truthyS, h]

/-- The JavaScript or-chain on two optional objects, restated through getD. -/
theorem isSome_guard_getD (p q : Option String) :
    (if p.isSome then p.getD "" else q.getD "") = p.getD (q.getD "") := by
  cases p <;> rfl

/-- Claim C4, amended: the classic variant computes the usage heuristic of
the claim, relating the response fields exactly (prompt is the maximum of one
and ten times the message count, completion is the ceiling of a quarter of
the final content length, total is their sum); the tools-enabled variant
instead attaches the flat triple of ten times the message count, fifty, and
one hundred to every composed completion, so there the completion heuristic
and the total-equals-sum identity of the original claim fail (see the
counterexample). -/
theorem c4_amended :
    (∀ (msgs : List ChatMessage) (rot : List BackendV1) (lr : Option BackendV1),
      (respondV1 msgs rot lr).usage.prompt = max 1 (msgs.length * 10) ∧
      (respondV1 msgs rot lr).usage.completion = ((respondV1 msgs rot lr).content.length + 3) / 4 ∧
      (respondV1 msgs rot lr).usage.total =
        (respondV1 msgs rot lr).usage.prompt + (respondV1 msgs rot lr).usage.completion) ∧
    (∀ (isR : Bool) (raw : List RawMessage) (gen : Nat → String) (bs : List Backend)
        (c : Option String) (tc : List ToolEntry) (fr : String) (u : Usage) (inv : List String),
      handleV4 isR raw gen bs = (V4Handler.completion c tc fr u, inv) →
      u = ⟨(cleanMessages raw).length * 10, 50, 100⟩) := by
  constructor
  · intro msgs rot lr
    exact ⟨rfl, rfl, rfl⟩
  · intro isR raw gen bs c tc fr u inv h
    unfold handleV4 at h
    by_cases hm : (cleanMessages raw).length = 0
    · simp [hm] at h
    · rw [if_neg hm] at h
      rcases hd : dispatchV4 gen bs with ⟨r, inv2⟩
      rw [hd] at h
      cases r with
      | success nm tt tcc =>
        simp only [Prod.mk.injEq, V4Handler.completion.injEq] at h
        exact h.1.2.2.2.symm
      | allFailed => simp at h

/-- Claim C4, witness: a concrete composed completion of the tools-enabled
handler carries the flat usage triple. -/
theorem c4_witness :
    (⟨10, 50, 100⟩ : Usage) =
      ⟨(cleanMessages [⟨some "user", RawContent.str "hola", none, none, none⟩]).length * 10,
        50, 100⟩ :=
  c4_amended.2 false [⟨some "user", RawContent.str "hola", none, none, none⟩] genTest
    [Backend.mk "A" [⟨some "hey", none⟩] false]
    (some "hey") [] "stop" ⟨10, 50, 100⟩ ["A"] (by decide)

/-- Claim C4, counterexample: for one message and the five-character text
hello, the claim requires the usage triple of ten, two and twelve, but the
tools-enabled handler produces ten, fifty and one hundred, whose total is
not even the sum of its prompt and completion parts. -/
theorem c4_counterexample :
    handleV4 false [⟨some "user", RawContent.str "hi", none, none, none⟩] genTest
        [Backend.mk "A" [⟨some "hello", none⟩] false] =
      (V4Handler.completion (some "hello") [] "stop" ⟨10, 50, 100⟩, ["A"]) ∧
    specUsage 1 5 false = ⟨10, 2, 12⟩ ∧
    (⟨10, 50, 100⟩ : Usage) ≠ specUsage 1 5 false ∧
    (10 : Nat) + 50 ≠ 100 :=
  ⟨by decide, by decide, by decide, by decide⟩

/-- Claim C5, amended: message normalization rewrites the roles chat and
model to assistant, defaults an absent or empty role to user, and passes
every other role string through verbatim and case-sensitively; in particular
the spellings human and ai are NOT mapped to user and assistant but kept
unchanged, and an unrecognized role is kept rather than replaced by user. -/
theorem c5_amended (m : RawMessage) :
    ((cleanOne m).role = "assistant" ↔
      (m.role = some "assistant" ∨ m.role = some "chat" ∨ m.role = some "model")) ∧
    ((m.role = none ∨ m.role = some "") → (cleanOne m).role = "user") ∧
    (∀ r, m.role = some r → r ≠ "chat" → r ≠ "model" → r ≠ "" → (cleanOne m).role = r) := by
  cases hm : m.role with
  | none =>
    refine ⟨by simp [cleanOne, truthyS, hm], fun _ => by simp [cleanOne, truthyS, hm], ?_⟩
    intro r hr
    exact absurd hr (by simp)
  | some r =>
    by_cases hr0 : r = ""
    · subst hr0
      refine ⟨by simp [cleanOne, truthyS, hm], fun _ => by simp [cleanOne, truthyS, hm], ?_⟩
      intro r' hr' _ _ h3
      obtain rfl := (Option.some.inj hr').symm
      exact absurd rfl h3
    · by_cases hchat : r = "chat" ∨ r = "model"
      · refine ⟨?_, ?_, ?_⟩
        · have hrole : (cleanOne m).role = "assistant" := by
            simp [cleanOne, truthyS, hm, hr0, hchat]
          rw [hrole]
          simp only [Option.some.injEq, true_iff]
          rcases hchat with h | h
          · subst h; simp
          · subst h; simp
        · rintro (h | h)
          · exact absurd h (by simp)
          · exact absurd (Option.some.inj h) hr0
        · intro r' hr' h1 h2 _
          obtain rfl := Option.some.inj hr'
          rcases hchat with h | h
          · exact absurd h h1
          · exact absurd h h2
      · push_neg at hchat
        have hrole : (cleanOne m).role = r := by
          simp [cleanOne, truthyS, hm, hr0, hchat.1, hchat.2]
        refine ⟨?_, ?_, ?_⟩
        · rw [hrole]
          simp only [Option.some.injEq]
          constructor
          · exact fun h => Or.inl h
          · rintro (h | h | h)
            · exact h
            · exact absurd h hchat.1
            · exact absurd h hchat.2
        · rintro (h | h)
          · exact absurd h (by simp)
          · exact absurd (Option.some.inj h) hr0
        · intro r' hr' _ _ _
          obtain rfl := Option.some.inj hr'
          exact hrole

/-- Claim C5, witness: the role chat is rewritten to assistant. -/
theorem c5_witness :
    (cleanOne ⟨some "chat", RawContent.str "x", none, none, none⟩).role = "assistant" :=
  (c5_amended ⟨some "chat", RawContent.str "x", none, none, none⟩).1.mpr (Or.inr (Or.inl rfl))

/-- Claim C5, counterexample: the spellings human and ai survive
normalization unchanged, while the claim maps them to user and assistant
respectively (case-insensitively); the code has no such table. -/
theorem c5_counterexample :
    cleanMessages [⟨some "human", RawContent.str "hi", none, none, none⟩] =
      [⟨"human", "hi", none, none, none⟩] ∧
    specRoleMap "human" = "user" ∧
    "human" ≠ "user" ∧
    cleanMessages [⟨some "ai", RawContent.str "yo", none, none, none⟩] =
      [⟨"ai", "yo", none, none, none⟩] ∧
    specRoleMap "ai" = "assistant" ∧
    "ai" ≠ "assistant" :=
  ⟨by decide, by decide, by decide, by decide, by decide, by decide⟩

/-- Claim C6, amended: a message is dropped by normalization exactly when its
extracted content is empty or whitespace-only AND it carries no tool_calls
field; the role plays no part, so a role-tool message with blank content and
no tool_calls is dropped, not retained as the original claim requires. -/
theorem c6_amended (m : RawMessage) :
    (cleanMessages [m] = [] ↔
      (trimJs (extractContent m.content) = "" ∧ m.tool_calls = none)) ∧
    (m.role = some "tool" → m.tool_calls = none → trimJs (extractContent m.content) = "" →
      cleanMessages [m] = []) := by
  have h1 : cleanMessages [m] = [] ↔
      (trimJs (extractContent m.content) = "" ∧ m.tool_calls = none) := by
    simp only [cleanMessages, List.map_cons, List.map_nil, List.filter_eq_nil_iff,
      List.mem_singleton, forall_eq]
    cases htc : m.tool_calls <;> simp [cleanOne, htc]
  exact ⟨h1, fun _ h2 h3 => h1.mpr ⟨h3, h2⟩⟩

/-- Claim C6, witness: a role-tool message with whitespace content and no
tool_calls vanishes from the canonical sequence. -/
theorem c6_witness :
    cleanMessages [⟨some "tool", RawContent.str " ", none, none, none⟩] = [] :=
  (c6_amended ⟨some "tool", RawContent.str " ", none, none, none⟩).2 rfl rfl (by decide)

/-- Claim C6, counterexample: a role-tool message with empty content and no
tool_calls is dropped by the code, while the claim (and the spec retention
rule it quotes) requires it to be retained. -/
theorem c6_counterexample :
    cleanMessages [⟨some "tool", RawContent.str "", none, some "call_7", none⟩] = [] ∧
    (cleanOne ⟨some "tool", RawContent.str "", none, some "call_7", none⟩).role = "tool" ∧
    specMessageKept "" none "tool" = true :=
  ⟨by decide, by decide, by decide⟩

/-- Claim C7, amended: a canonical entry passes through unchanged; the
rewrap into the canonical shape happens only for an entry with a truthy
top-level name AND a present top-level parameters or arguments field, taking
the name from t.name, the description from t.description (or empty) and the
parameters from t.parameters, falling back to t.arguments; there is no
default empty-object schema, and any other entry (in particular a flat entry
carrying only a name) passes through unchanged and is then discarded unless
its function.name is truthy. -/
theorem c7_amended (t : RawTool) :
    (t.type = some "function" ∧ truthyS (rawFnName t) = true → normalizeTool t = NTool.raw t) ∧
    (¬(t.type = some "function" ∧ truthyS (rawFnName t) = true) →
      truthyS t.name = true → (t.parameters.isSome ∨ t.arguments.isSome) →
      normalizeTool t =
        NTool.fn (t.name.getD "") (t.description.getD "") (t.parameters.getD (t.arguments.getD ""))) ∧
    (¬(t.type = some "function" ∧ truthyS (rawFnName t) = true) →
      ¬(truthyS t.name = true ∧ (t.parameters.isSome ∨ t.arguments.isSome)) →
      normalizeTool t = NTool.raw t) ∧
    (normalizeTools (some [t]) = some [] ↔ keepTool (normalizeTool t) = false) ∧
    normalizeTools none = none ∧ normalizeTools (some []) = none := by
  refine ⟨?_, ?_, ?_, ?_, rfl, rfl⟩
  · intro h
    simp [normalizeTool, h.1, h.2]
  · intro h hn hp
    rw [normalizeTool, if_neg h, if_pos ⟨hn, hp⟩, truthy_guard_getD, isSome_guard_getD]
  · intro h hnp
    rw [normalizeTool, if_neg h, if_neg hnp]
  · cases hk : keepTool (normalizeTool t) <;>
      simp [normalizeTools, List.filter, hk]

/-- Claim C7, witness: a flat entry with a name and parameters is rewrapped
into the canonical shape with empty description and its own parameters. -/
theorem c7_witness :
    normalizeTool ⟨none, none, some "foo", none, some "PARAMS", none⟩ =
      NTool.fn "foo" "" "PARAMS" :=
  (c7_amended ⟨none, none, some "foo", none, some "PARAMS", none⟩).2.1
    (by decide) (by decide) (by decide)

/-- Claim C7, counterexample: a flat entry carrying the resolvable name foo
but no parameters and no arguments is discarded by the code, while the claim
requires it to be synthesized with the default empty-object schema. -/
theorem c7_counterexample :
    normalizeTools (some [⟨none, none, some "foo", none, none, none⟩]) = some [] ∧
    specToolHasName ⟨none, none, some "foo", none, none, none⟩ = true :=
  ⟨by decide, by decide⟩

/-- The frames emitted by the classic streaming rotation loop are all plain
chunk frames. -/
theorem streamLoopV1_chunks (rot : List BackendV1) :
    ∃ cs : List String, (streamLoopV1 rot).1 = cs.map Frame.chunk := by
  induction rot with
  | nil => exact ⟨[], rfl⟩
  | cons b rest ih =>
    obtain ⟨cs, hcs⟩ := ih
    by_cases hr : b.raises = true
    · refine ⟨b.chunks ++ cs, ?_⟩
      simp [streamLoopV1, hr, hcs]
    · refine ⟨b.chunks, ?_⟩
      simp [streamLoopV1, hr]

/-- Claim C8, amended: the classic streaming handler always emits a sequence
of chunk frames (one per received chunk, across every attempted backend)
terminated by the stop sentinel and the DONE frame.  The tools-enabled
streaming handler never emits a stop sentinel: after a cleanly drained
backend its delta frames are followed by DONE alone, and when every backend
raises the sequence carries no terminator at all. -/
theorem c8_amended :
    (∀ (rot : List BackendV1) (lr : Option BackendV1),
      ∃ cs : List String, streamV1 rot lr = cs.map Frame.chunk ++ [Frame.stop, Frame.done]) ∧
    (∀ bs : List Backend, Frame.stop ∉ streamV4 bs) ∧
    (∀ bs : List Backend, (∀ b ∈ bs, b.raises = true) → Frame.done ∉ streamV4 bs) ∧
    (∀ bs : List Backend, (∃ b ∈ bs, b.raises = false) →
      ∃ ds : List Delta, streamV4 bs = ds.map Frame.deltaChunk ++ [Frame.done]) := by
  refine ⟨?_, ?_, ?_, ?_⟩
  · intro rot lr
    obtain ⟨cs, hcs⟩ := streamLoopV1_chunks rot
    cases lr with
    | none => exact ⟨cs, by simp [streamV1, hcs]⟩
    | some b =>
      by_cases hs : (streamLoopV1 rot).2 = true
      · exact ⟨cs, by simp [streamV1, hs, hcs]⟩
      · refine ⟨cs ++ b.chunks, ?_⟩
        simp [streamV1, hs, hcs]
  · intro bs
    induction bs with
    | nil => simp [streamV4]
    | cons b rest ih =>
      by_cases hr : b.raises = true <;>
        simp [streamV4, hr, ih]
  · intro bs h
    induction bs with
    | nil => simp [streamV4]
    | cons b rest ih =>
      have hr := h b (List.mem_cons_self b rest)
      simp [streamV4, hr]
      exact ih fun x hx => h x (List.mem_cons_of_mem b hx)
  · intro bs h
    induction bs with
    | nil => simp at h
    | cons b rest ih =>
      by_cases hr : b.raises = true
      · have hrest : ∃ x ∈ rest, x.raises = false := by
          rcases h with ⟨x, hx, hxr⟩
          rcases List.mem_cons.mp hx with rfl | hx'
          · exact absurd hr (by simp [hxr])
          · exact ⟨x, hx', hxr⟩
        obtain ⟨ds, hds⟩ := ih hrest
        refine ⟨b.deltas ++ ds, ?_⟩
        simp [streamV4, hr, hds]
      · refine ⟨b.deltas, ?_⟩
        simp [streamV4, hr]

/-- Claim C8, witness: a concrete classic stream ends with the stop sentinel
and DONE, and a concrete tools-enabled stream ends with DONE alone. -/
theorem c8_witness :
    (∃ cs : List String,
      streamV1 [⟨"A", ["ho"], false⟩] none = cs.map Frame.chunk ++ [Frame.stop, Frame.done]) ∧
    (∃ ds : List Delta,
      streamV4 [Backend.mk "A" [⟨some "x", none⟩] false] =
        ds.map Frame.deltaChunk ++ [Frame.done]) :=
  ⟨c8_amended.1 [⟨"A", ["ho"], false⟩] none,
   c8_amended.2.2.2 [Backend.mk "A" [⟨some "x", none⟩] false]
     ⟨Backend.mk "A" [⟨some "x", none⟩] false, List.mem_cons_self .., rfl⟩⟩

/-- Claim C8, counterexample: in the tools-enabled streaming handler, a
request whose only backend raises emits no frame at all (no stop sentinel,
no DONE), and a cleanly served request emits its delta chunk followed
directly by DONE with no stop sentinel, while the claim requires every
streaming request to be terminated by a stop sentinel and then DONE. -/
theorem c8_counterexample :
    streamV4 [Backend.mk "A" [] true] = [] ∧
    ([] : List Frame) ≠ [Frame.stop, Frame.done] ∧
    streamV4 [Backend.mk "B" [⟨some "x", none⟩] false] =
      [Frame.deltaChunk ⟨some "x", none⟩, Frame.done] ∧
    Frame.stop ∉ streamV4 [Backend.mk "B" [⟨some "x", none⟩] false] :=
  ⟨by decide, by decide, by decide, by decide⟩

/-- Claim C9, amended: when at least one of the three rotation credentials
is present, the rotation list is exactly the enabled backends in the fixed
order groq, cerebras, gemini; but when none is present the list defaults to
the groq backend alone, so a backend whose key is absent CAN appear in the
rotation list.  The openrouter last-resort backend is held separately (not
appended to the list) and is configured exactly when its key is present. -/
theorem c9_amended (e : Env) :
    (availableServices e ≠ [] → rotationServices e = availableServices e) ∧
    (availableServices e = [] → rotationServices e = [Service.groq]) ∧
    (Service.groq ∈ availableServices e ↔ e.groq = true) ∧
    (Service.cerebras ∈ availableServices e ↔ e.cerebras = true) ∧
    (Service.gemini ∈ availableServices e ↔ e.gemini = true) ∧
    Service.openrouter ∉ availableServices e ∧
    (lastResortService e = some Service.openrouter ↔ e.openrouter = true) := by
  obtain ⟨g, c, ge, o⟩ := e
  cases g <;> cases c <;> cases ge <;> cases o <;> decide

/-- Claim C9, witness: with the groq and gemini keys present the rotation
list is exactly the available list. -/
theorem c9_witness :
    rotationServices ⟨true, false, true, false⟩ = availableServices ⟨true, false, true, false⟩ :=
  (c9_amended ⟨true, false, true, false⟩).1 (by decide)

/-- Claim C9, counterexample: with no credential present at all, the
rotation list is the groq backend alone, although the groq key is absent;
the claim says a backend whose key is absent never appears. -/
theorem c9_counterexample :
    rotationServices ⟨false, false, false, false⟩ = [Service.groq] ∧
    availableServices ⟨false, false, false, false⟩ = [] :=
  ⟨by decide, by decide⟩

/-- Claim C10: when normalization leaves zero messages, the tools-enabled
chat-completions handler replies immediately with the fixed placeholder
assistant message (an HTTP 200 chat-completion object) and invokes no
backend: the result does not depend on the backend list and the invoked-name
list is empty. -/
theorem c10_empty_messages (raw : List RawMessage) (gen : Nat → String) (bs : List Backend)
    (h : cleanMessages raw = []) :
    handleV4 false raw gen bs = (V4Handler.placeholder "Conexión activa.", []) := by
  unfold handleV4
  rw [h]
  rfl

/-- Claim C10, witness: a body whose only message is whitespace normalizes
to zero messages and yields the placeholder with no backend invoked, even
with a backend configured. -/
theorem c10_witness :
    handleV4 false [⟨some "user", RawContent.str "  ", none, none, none⟩] genTest
        [Backend.mk "X" [⟨some "never", none⟩] false] =
      (V4Handler.placeholder "Conexión activa.", []) :=
  c10_empty_messages [⟨some "user", RawContent.str "  ", none, none, none⟩] genTest
    [Backend.mk "X" [⟨some "never", none⟩] false] (by decide)

end MultiIaProxy
